import Mathlib

/-!
Shallow embedding of `src/hrv_analysis.py` (HRV percentile calculator).

The source defines three functions over a hard-coded normative table
(Voss et al. 2015): `get_hrv_percentile`, `get_5th_percentile_value`,
`get_normative_range`.  Python floats are modelled as exact rationals ℚ.
The scipy/math distribution primitives (`st.norm.cdf`, `st.norm.ppf`,
`st.t.ppf`, `math.sqrt`) are external library calls; they are modelled as
an explicit parameter record `StatsPrims`, and theorems assume only true
mathematical properties of the real primitives (monotonicity of the normal
CDF, Φ(0)=1/2, Φ⁻¹(0.05)<0, t-critical ≥ 0, sqrt > 0) as hypotheses.

The Python functions return formatted strings (or `None`); we model the
structured payload of those returns: a discriminated `HrvResult` for
`get_hrv_percentile` (one constructor per distinct error string, plus the
numeric fields embedded in the success string), `Option ℚ` for
`get_5th_percentile_value`, and `Option (ℚ × ℚ)` for the pair of numbers
formatted into the string of `get_normative_range`.  The uncaught `TypeError`
that `get_hrv_percentile` raises when the metric string is exactly `"n"`
(the sample-size key of the group dict, whose value is an `int` that the
code then subscripts; only `KeyError` is caught) is modelled by the
`typeError` constructor.
-/

namespace HrvAnalysis

/-- The two gender keys of the normative tables. -/
inductive Gender where
  | male
  | female
deriving DecidableEq, Repr

/-- The five age-band keys `25-34 … 65-74` of the normative tables. -/
inductive AgeBand where
  | b25_34
  | b35_44
  | b45_54
  | b55_64
  | b65_74
deriving DecidableEq, Repr

/-- The three canonical metric keys `sdNN`, `RMSSD`, `HF`. -/
inductive Metric where
  | sdNN
  | RMSSD
  | HF
deriving DecidableEq, Repr

/-- One mean/sd entry of the normative table. -/
structure NormEntry where
  mean : ℚ
  sd : ℚ
deriving DecidableEq, Repr

/-- The normative mean/sd table from Voss et al. (2015).  The source embeds
this literal dict three times, once in each of the three functions, with
numerically identical values; we define it once. -/
def hrvNorms : Gender → AgeBand → Metric → NormEntry
  | .female, .b25_34, .sdNN => ⟨45.4, 18.0⟩
  | .female, .b25_34, .RMSSD => ⟨36.1, 18.4⟩
  | .female, .b25_34, .HF => ⟨161, 167⟩
  | .female, .b35_44, .sdNN => ⟨42.1, 16.8⟩
  | .female, .b35_44, .RMSSD => ⟨30.7, 15.1⟩
  | .female, .b35_44, .HF => ⟨121, 145⟩
  | .female, .b45_54, .sdNN => ⟨36.6, 14.7⟩
  | .female, .b45_54, .RMSSD => ⟨24.5, 12.3⟩
  | .female, .b45_54, .HF => ⟨62, 83⟩
  | .female, .b55_64, .sdNN => ⟨32.2, 13.5⟩
  | .female, .b55_64, .RMSSD => ⟨20.3, 10.8⟩
  | .female, .b55_64, .HF => ⟨35, 53⟩
  | .female, .b65_74, .sdNN => ⟨31.6, 13.6⟩
  | .female, .b65_74, .RMSSD => ⟨19.4, 10.1⟩
  | .female, .b65_74, .HF => ⟨29, 38⟩
  | .male, .b25_34, .sdNN => ⟨49.9, 19.8⟩
  | .male, .b25_34, .RMSSD => ⟨36.2, 18.1⟩
  | .male, .b25_34, .HF => ⟨133, 174⟩
  | .male, .b35_44, .sdNN => ⟨44.8, 18.1⟩
  | .male, .b35_44, .RMSSD => ⟨30.6, 15.4⟩
  | .male, .b35_44, .HF => ⟨89, 118⟩
  | .male, .b45_54, .sdNN => ⟨41.3, 17.6⟩
  | .male, .b45_54, .RMSSD => ⟨26.8, 13.7⟩
  | .male, .b45_54, .HF => ⟨41, 49⟩
  | .male, .b55_64, .sdNN => ⟨38.3, 17.0⟩
  | .male, .b55_64, .RMSSD => ⟨23.4, 12.0⟩
  | .male, .b55_64, .HF => ⟨29, 38⟩
  | .male, .b65_74, .sdNN => ⟨34.9, 15.9⟩
  | .male, .b65_74, .RMSSD => ⟨21.1, 11.0⟩
  | .male, .b65_74, .HF => ⟨22, 29⟩

/-- The sample-size value stored under the key `n` of each
(gender, age-band) group in the table of `get_hrv_percentile`. -/
def sampleSize : Gender → AgeBand → ℕ
  | .female, .b25_34 => 208
  | .female, .b35_44 => 259
  | .female, .b45_54 => 158
  | .female, .b55_64 => 95
  | .female, .b65_74 => 62
  | .male, .b25_34 => 330
  | .male, .b35_44 => 292
  | .male, .b45_54 => 235
  | .male, .b55_64 => 183
  | .male, .b65_74 => 84

/-- The age-band resolution chain of ifs (`25 <= age <= 34` …, shared
verbatim by all three functions); any other age falls to the else branch. -/
def ageGroup (age : ℤ) : Option AgeBand :=
  if 25 ≤ age ∧ age ≤ 34 then some .b25_34
  else if 35 ≤ age ∧ age ≤ 44 then some .b35_44
  else if 45 ≤ age ∧ age ≤ 54 then some .b45_54
  else if 55 ≤ age ∧ age ≤ 64 then some .b55_64
  else if 65 ≤ age ∧ age ≤ 74 then some .b65_74
  else none

/-- Characterwise model of the Python string lower method (ASCII-faithful): maps
`Char.toLower` over the character list.  (`String.toLower` computes the
same string but its `String.mapAux` does not reduce in the kernel.) -/
def strLower (s : String) : String := String.mk (s.data.map Char.toLower)

/-- Lowercasing of the gender argument followed by the membership test in
the list [male, female] (in `get_hrv_percentile`), identically the dict
lookup `hrv_norms[gender]` after lowering (in the two range functions):
both admit exactly the strings whose lowercasing is `male` or `female`. -/
def parseGender (gender : String) : Option Gender :=
  let l := strLower gender
  if l = "male" then some .male
  else if l = "female" then some .female
  else none

/-- Model of metric_mapping.get(hrv_metric.lower(), hrv_metric): the
lowercased name is looked up in the dict mapping sdnn to sdNN, rmssd to
RMSSD and hf to HF, and an unmapped name passes through as the original
string. -/
def normalizeMetric (hrv_metric : String) : String :=
  let l := strLower hrv_metric
  if l = "sdnn" then "sdNN"
  else if l = "rmssd" then "RMSSD"
  else if l = "hf" then "HF"
  else hrv_metric

/-- String-keyed lookup among the three metric keys of a group dict. -/
def metricFromKey (key : String) : Option Metric :=
  if key = "sdNN" then some .sdNN
  else if key = "RMSSD" then some .RMSSD
  else if key = "HF" then some .HF
  else none

/-- A value of the group dict in the table of `get_hrv_percentile`: the
keys `sdNN`/`RMSSD`/`HF` hold mean/sd dicts while the key `n` holds the
bare sample-size integer. -/
inductive GroupValue where
  | entry (e : NormEntry)
  | count (n : ℕ)
deriving DecidableEq, Repr

/-- Model of group_data[normalized_metric] in `get_hrv_percentile`: the
group dict has the four keys `sdNN`, `RMSSD`, `HF` and `n`; any other key
raises `KeyError` (modelled as `none`). -/
def groupLookup (g : Gender) (b : AgeBand) (key : String) : Option GroupValue :=
  match metricFromKey key with
  | some m => some (.entry (hrvNorms g b m))
  | none => if key = "n" then some (.count (sampleSize g b)) else none

/-- The reliability tiers. -/
inductive Reliability where
  | Low
  | Moderate
  | Good
  | High
deriving DecidableEq, Repr

/-- The sample-size based reliability chain of ifs in `get_hrv_percentile`. -/
def reliability (n : ℕ) : Reliability :=
  if n < 50 then .Low
  else if n < 100 then .Moderate
  else if n < 200 then .Good
  else .High

/-- The external statistical primitives the source calls: `st.norm.cdf`,
`st.norm.ppf(0.05)`, `st.norm.ppf(0.95)`, `st.t.ppf(0.975, df)` and
`math.sqrt(n)`.  They live in scipy/libm, outside this repository, so the
embedding takes them as parameters; theorems assume of them only facts true
of the real functions. -/
structure StatsPrims where
  normCdf : ℚ → ℚ
  normPpf05 : ℚ
  normPpf95 : ℚ
  tPpf975 : ℕ → ℚ
  sqrtQ : ℕ → ℚ

/-- The structured payload returned by `get_hrv_percentile`: one
constructor per distinct error string the source returns, `typeError` for
the uncaught `TypeError` raised when the metric string is exactly `"n"`,
and `ok` holding the numbers and tier formatted into the success string. -/
inductive HrvResult where
  | outOfRange
  | invalidGender
  | metricUnavailable
  | degenerateVariance
  | typeError
  | ok (percentile percentile_lower percentile_upper : ℚ) (n : ℕ) (rel : Reliability)
deriving DecidableEq, Repr

/-- Embedding of get_hrv_percentile(age, gender, hrv_metric, user_value):
age-band resolution, gender validation, metric normalization, table lookup (where
the key `"n"` hits the sample-size int and the subsequent subscript raises
an uncaught `TypeError`), zero-sd guard, then z-score, percentile, and the
t-distribution confidence band mapped back through the normal CDF. -/
def get_hrv_percentile (P : StatsPrims) (age : ℤ) (gender : String)
    (hrv_metric : String) (user_value : ℚ) : HrvResult :=
  match ageGroup age with
  | none => .outOfRange
  | some age_group =>
    match parseGender gender with
    | none => .invalidGender
    | some g =>
      match groupLookup g age_group (normalizeMetric hrv_metric) with
      | none => .metricUnavailable
      | some (.count _) => .typeError
      | some (.entry e) =>
        if e.sd = 0 then .degenerateVariance
        else
          let n := sampleSize g age_group
          let z_score := (user_value - e.mean) / e.sd
          let percentile := P.normCdf z_score * 100
          let sem := e.sd / P.sqrtQ n
          let t_critical := P.tPpf975 (n - 1)
          let ci_lower_mean := e.mean - t_critical * sem
          let ci_upper_mean := e.mean + t_critical * sem
          let z_lower := (user_value - ci_upper_mean) / e.sd
          let z_upper := (user_value - ci_lower_mean) / e.sd
          .ok percentile (P.normCdf z_lower * 100) (P.normCdf z_upper * 100)
            n (reliability n)

/-- Embedding of get_5th_percentile_value(age, gender, hrv_metric): an
out-of-range age returns `None`; gender or metric dict misses raise
`KeyError`, caught and returned as `None`; otherwise
`max(0, mean + ppf(0.05)*sd)`.  The group dicts of the table of this
function have no `n` key. -/
def get_5th_percentile_value (P : StatsPrims) (age : ℤ) (gender : String)
    (hrv_metric : String) : Option ℚ :=
  match ageGroup age with
  | none => none
  | some age_group =>
    match parseGender gender with
    | none => none
    | some g =>
      match metricFromKey (normalizeMetric hrv_metric) with
      | none => none
      | some m =>
        let data := hrvNorms g age_group m
        let z_score_5th := P.normPpf05
        let percentile_5th_value := data.mean + z_score_5th * data.sd
        some (max 0 percentile_5th_value)

/-- Embedding of get_normative_range(age, gender, hrv_metric): same resolution and
misses as `get_5th_percentile_value`; on success the source formats the
pair `(percentile_5th, percentile_95th)` into a string, with the 5th
percentile floored at 1.0 for RMSSD, 5.0 for HF and 0.1 otherwise (sdNN);
we model the numeric pair. -/
def get_normative_range (P : StatsPrims) (age : ℤ) (gender : String)
    (hrv_metric : String) : Option (ℚ × ℚ) :=
  match ageGroup age with
  | none => none
  | some age_group =>
    match parseGender gender with
    | none => none
    | some g =>
      match metricFromKey (normalizeMetric hrv_metric) with
      | none => none
      | some m =>
        let data := hrvNorms g age_group m
        let percentile_5th := data.mean + P.normPpf05 * data.sd
        let percentile_95th := data.mean + P.normPpf95 * data.sd
        let percentile_5th :=
          if m = .RMSSD ∨ m = .HF then
            let min_threshold : ℚ := if m = .RMSSD then 1.0 else 5.0
            max min_threshold percentile_5th
          else
            max 0.1 percentile_5th
        some (percentile_5th, percentile_95th)

/-- Accessor: the point percentile of a successful result. -/
def percentileOf : HrvResult → Option ℚ
  | .ok p _ _ _ _ => some p
  | _ => none

/-- Accessor: the lower percentile CI bound of a successful result. -/
def ciLowerOf : HrvResult → Option ℚ
  | .ok _ lo _ _ _ => some lo
  | _ => none

/-- Accessor: the upper percentile CI bound of a successful result. -/
def ciUpperOf : HrvResult → Option ℚ
  | .ok _ _ hi _ _ => some hi
  | _ => none

/-- Accessor: the sample size of a successful result. -/
def sampleOf : HrvResult → Option ℕ
  | .ok _ _ _ n _ => some n
  | _ => none

/-- Accessor: the reliability tier of a successful result. -/
def reliabilityOf : HrvResult → Option Reliability
  | .ok _ _ _ _ r => some r
  | _ => none

/-- The metric-specific lower-bound floor applied by `get_normative_range`:
1.0 for RMSSD, 5.0 for HF, 0.1 for the remaining metric (sdNN). -/
def metricFloor : Metric → ℚ
  | .RMSSD => 1.0
  | .HF => 5.0
  | .sdNN => 0.1

/-- Concrete instantiation of the statistical primitives used only to
witness the parametric theorems on closed inputs: a strictly monotone
affine stand-in for the normal CDF with value 1/2 at 0, and rational
stand-ins of the right sign for the quantile and square-root values. -/
def linPrims : StatsPrims where
  normCdf := fun z => z + 1/2
  normPpf05 := -2
  normPpf95 := 2
  tPpf975 := fun _ => 2
  sqrtQ := fun n => mkRat n 1

theorem hrvNorms_sd_pos (g : Gender) (b : AgeBand) (m : Metric) :
    0 < (hrvNorms g b m).sd := by
  cases g <;> cases b <;> cases m <;> norm_num [hrvNorms]

theorem ageGroup_eq_none_iff (age : ℤ) :
    ageGroup age = none ↔ ¬(25 ≤ age ∧ age ≤ 74) := by
  unfold ageGroup
  split_ifs <;> simp <;> omega

theorem parseGender_eq_none_iff (s : String) :
    parseGender s = none ↔ strLower s ≠ "male" ∧ strLower s ≠ "female" := by
  simp only [parseGender]
  split_ifs with h1 h2 <;> simp_all

theorem groupLookup_entry (g : Gender) (b : AgeBand) (key : String) (m : Metric)
    (hm : metricFromKey key = some m) :
    groupLookup g b key = some (.entry (hrvNorms g b m)) := by
  unfold groupLookup
  rw [hm]

theorem get_hrv_percentile_valid (P : StatsPrims) (age : ℤ)
    (gender hrv_metric : String) (user_value : ℚ)
    (b : AgeBand) (g : Gender) (m : Metric)
    (hb : ageGroup age = some b) (hg : parseGender gender = some g)
    (hm : metricFromKey (normalizeMetric hrv_metric) = some m) :
    get_hrv_percentile P age gender hrv_metric user_value =
      HrvResult.ok
        (P.normCdf ((user_value - (hrvNorms g b m).mean) / (hrvNorms g b m).sd) * 100)
        (P.normCdf ((user_value - ((hrvNorms g b m).mean +
            P.tPpf975 (sampleSize g b - 1) *
              ((hrvNorms g b m).sd / P.sqrtQ (sampleSize g b)))) /
            (hrvNorms g b m).sd) * 100)
        (P.normCdf ((user_value - ((hrvNorms g b m).mean -
            P.tPpf975 (sampleSize g b - 1) *
              ((hrvNorms g b m).sd / P.sqrtQ (sampleSize g b)))) /
            (hrvNorms g b m).sd) * 100)
        (sampleSize g b) (reliability (sampleSize g b)) := by
  have hsd : ¬ (hrvNorms g b m).sd = 0 := ne_of_gt (hrvNorms_sd_pos g b m)
  unfold get_hrv_percentile
  simp only [hb, hg, groupLookup_entry g b (normalizeMetric hrv_metric) m hm, if_neg hsd]

theorem get_5th_percentile_value_valid (P : StatsPrims) (age : ℤ)
    (gender hrv_metric : String) (b : AgeBand) (g : Gender) (m : Metric)
    (hb : ageGroup age = some b) (hg : parseGender gender = some g)
    (hm : metricFromKey (normalizeMetric hrv_metric) = some m) :
    get_5th_percentile_value P age gender hrv_metric =
      some (max 0 ((hrvNorms g b m).mean + P.normPpf05 * (hrvNorms g b m).sd)) := by
  unfold get_5th_percentile_value
  simp only [hb, hg, hm]

theorem get_normative_range_valid (P : StatsPrims) (age : ℤ)
    (gender hrv_metric : String) (b : AgeBand) (g : Gender) (m : Metric)
    (hb : ageGroup age = some b) (hg : parseGender gender = some g)
    (hm : metricFromKey (normalizeMetric hrv_metric) = some m) :
    get_normative_range P age gender hrv_metric =
      some (max (metricFloor m) ((hrvNorms g b m).mean + P.normPpf05 * (hrvNorms g b m).sd),
            (hrvNorms g b m).mean + P.normPpf95 * (hrvNorms g b m).sd) := by
  unfold get_normative_range
  simp only [hb, hg, hm]
  cases m <;> simp [metricFloor]


/-- C1 (failing-input evaluation): calling `get_hrv_percentile` with the
metric-name string `"n"` — which does not normalize to sdNN/RMSSD/HF — does
not return the metric-unavailable value: normalization passes `"n"` through,
the group-dict lookup hits the sample-size integer stored under the key
`n`, and subscripting that integer raises an uncaught `TypeError` (only
`KeyError` is caught), while any other unmapped name does return the
metric-unavailable value. -/
theorem C1_metric_n_crashes :
    get_hrv_percentile linPrims 30 "male" "n" 50 = HrvResult.typeError
    ∧ get_hrv_percentile linPrims 30 "male" "xyz" 50 = HrvResult.metricUnavailable := by
  decide

/-- C2: for every valid (age, gender, metric) key, `get_5th_percentile_value`
returns exactly `max(0, mean + z5*sd)` with z5 = Φ⁻¹(0.05) — the floor 0, not
the 0.1/1.0/5.0 metric-specific floors of the range calculator — so its
result is always ≥ 0, and it can differ from the p5 component returned by
`get_normative_range` for the same key (exhibited at (70, female, HF), using
only the true fact Φ⁻¹(0.05) ≤ −1 about the quantile). -/
theorem C2_single_bound_5th_floor (P : StatsPrims) (hz : P.normPpf05 ≤ -1)
    (age : ℤ) (gender hrv_metric : String) (b : AgeBand) (g : Gender) (m : Metric)
    (hb : ageGroup age = some b) (hg : parseGender gender = some g)
    (hm : metricFromKey (normalizeMetric hrv_metric) = some m) :
    get_5th_percentile_value P age gender hrv_metric =
      some (max 0 ((hrvNorms g b m).mean + P.normPpf05 * (hrvNorms g b m).sd))
    ∧ (∀ x, get_5th_percentile_value P age gender hrv_metric = some x → 0 ≤ x)
    ∧ (∃ x p5 p95, get_5th_percentile_value P 70 "female" "HF" = some x
        ∧ get_normative_range P 70 "female" "HF" = some (p5, p95) ∧ x ≠ p5) := by
  have h5 := get_5th_percentile_value_valid P age gender hrv_metric b g m hb hg hm
  refine ⟨h5, ?_, ?_⟩
  · intro x hx
    rw [h5] at hx
    rw [← Option.some.inj hx]
    exact le_max_left _ _
  · have hneg : (29 : ℚ) + P.normPpf05 * 38 ≤ 0 := by
      have h38 : P.normPpf05 * (38 : ℚ) ≤ (-1) * 38 :=
        mul_le_mul_of_nonneg_right hz (by norm_num)
      linarith
    refine ⟨max 0 ((29 : ℚ) + P.normPpf05 * 38),
            max 5.0 ((29 : ℚ) + P.normPpf05 * 38),
            (29 : ℚ) + P.normPpf95 * 38, ?_, ?_, ?_⟩
    · rw [get_5th_percentile_value_valid P 70 "female" "HF" .b65_74 .female .HF
        (by decide) (by decide) (by decide)]
      norm_num [hrvNorms]
    · rw [get_normative_range_valid P 70 "female" "HF" .b65_74 .female .HF
        (by decide) (by decide) (by decide)]
      norm_num [hrvNorms, metricFloor]
    · rw [max_eq_left hneg, max_eq_left (hneg.trans (by norm_num : (0:ℚ) ≤ 5.0))]
      norm_num

/-- C2 witness: the theorem applied at (30, male, sdNN) with the concrete
primitive stand-ins. -/
theorem C2_witness :
    get_5th_percentile_value linPrims 30 "male" "sdNN" =
      some (max 0 ((hrvNorms .male .b25_34 .sdNN).mean
        + linPrims.normPpf05 * (hrvNorms .male .b25_34 .sdNN).sd))
    ∧ (∀ x, get_5th_percentile_value linPrims 30 "male" "sdNN" = some x → 0 ≤ x)
    ∧ (∃ x p5 p95, get_5th_percentile_value linPrims 70 "female" "HF" = some x
        ∧ get_normative_range linPrims 70 "female" "HF" = some (p5, p95) ∧ x ≠ p5) :=
  C2_single_bound_5th_floor linPrims (by decide) 30 "male" "sdNN" .b25_34 .male .sdNN
    (by decide) (by decide) (by decide)

/-- C3: for every valid (age, gender, metric) key, `get_normative_range`
returns (p5, p95) with p5 = max(floor_m, mean + Φ⁻¹(0.05)·sd) where the
floor is 1.0 for RMSSD, 5.0 for HF and 0.1 for sdNN, and
p95 = mean + Φ⁻¹(0.95)·sd unclamped; in particular the returned p5 is never
below the floor of its metric. -/
theorem C3_range_floors (P : StatsPrims) (age : ℤ) (gender hrv_metric : String)
    (b : AgeBand) (g : Gender) (m : Metric)
    (hb : ageGroup age = some b) (hg : parseGender gender = some g)
    (hm : metricFromKey (normalizeMetric hrv_metric) = some m) :
    get_normative_range P age gender hrv_metric =
      some (max (metricFloor m)
              ((hrvNorms g b m).mean + P.normPpf05 * (hrvNorms g b m).sd),
            (hrvNorms g b m).mean + P.normPpf95 * (hrvNorms g b m).sd)
    ∧ (∀ p5 p95, get_normative_range P age gender hrv_metric = some (p5, p95) →
        metricFloor m ≤ p5) := by
  have h := get_normative_range_valid P age gender hrv_metric b g m hb hg hm
  refine ⟨h, ?_⟩
  intro p5 p95 hp
  rw [h] at hp
  injection hp with hpair
  rw [Prod.mk.injEq] at hpair
  rw [← hpair.1]
  exact le_max_left _ _

/-- C3 witness: the theorem applied at (30, male, "sdnn") with the concrete
primitive stand-ins. -/
theorem C3_witness :
    get_normative_range linPrims 30 "male" "sdnn" =
      some (max (metricFloor .sdNN)
              ((hrvNorms .male .b25_34 .sdNN).mean
                + linPrims.normPpf05 * (hrvNorms .male .b25_34 .sdNN).sd),
            (hrvNorms .male .b25_34 .sdNN).mean
              + linPrims.normPpf95 * (hrvNorms .male .b25_34 .sdNN).sd)
    ∧ (∀ p5 p95, get_normative_range linPrims 30 "male" "sdnn" = some (p5, p95) →
        metricFloor .sdNN ≤ p5) :=
  C3_range_floors linPrims 30 "male" "sdnn" .b25_34 .male .sdNN
    (by decide) (by decide) (by decide)

/-- C4: for every valid (age, gender, metric) key and every user value, the
percentile returned by `get_hrv_percentile` equals Φ((v − mean)/sd)·100 for
the table entry of the key, and when the user value equals the table mean
the percentile equals 50 (using the true fact Φ(0) = 1/2). -/
theorem C4_percentile_formula (P : StatsPrims) (hPhi : P.normCdf 0 = 1/2)
    (age : ℤ) (gender hrv_metric : String) (user_value : ℚ)
    (b : AgeBand) (g : Gender) (m : Metric)
    (hb : ageGroup age = some b) (hg : parseGender gender = some g)
    (hm : metricFromKey (normalizeMetric hrv_metric) = some m) :
    percentileOf (get_hrv_percentile P age gender hrv_metric user_value) =
      some (P.normCdf ((user_value - (hrvNorms g b m).mean) / (hrvNorms g b m).sd) * 100)
    ∧ (user_value = (hrvNorms g b m).mean →
        percentileOf (get_hrv_percentile P age gender hrv_metric user_value) = some 50) := by
  rw [get_hrv_percentile_valid P age gender hrv_metric user_value b g m hb hg hm]
  refine ⟨rfl, ?_⟩
  intro hv
  subst hv
  simp only [percentileOf, sub_self, zero_div, hPhi]
  norm_num

/-- C4 witness: the theorem applied at (30, male, sdNN) with the user value
equal to the table mean 49.9, so the percentile is exactly 50. -/
theorem C4_witness :
    percentileOf (get_hrv_percentile linPrims 30 "male" "sdNN" 49.9) =
      some (linPrims.normCdf ((49.9 - (hrvNorms .male .b25_34 .sdNN).mean)
        / (hrvNorms .male .b25_34 .sdNN).sd) * 100)
    ∧ ((49.9 : ℚ) = (hrvNorms .male .b25_34 .sdNN).mean →
        percentileOf (get_hrv_percentile linPrims 30 "male" "sdNN" 49.9) = some 50) :=
  C4_percentile_formula linPrims (by simp [linPrims]) 30 "male" "sdNN" 49.9
    .b25_34 .male .sdNN (by decide) (by decide) (by decide)

theorem ageGroup_isSome_of_inRange (age : ℤ) (h : 25 ≤ age ∧ age ≤ 74) :
    ∃ b, ageGroup age = some b := by
  rcases hb : ageGroup age with _ | b
  · exact absurd ((ageGroup_eq_none_iff age).mp hb) (not_not_intro h)
  · exact ⟨b, rfl⟩

/-- C5: for every valid key and user value, the confidence bounds of
`get_hrv_percentile` bracket the point estimate: the lower percentile is
computed against the upper mean bound `mean + t*·sem` and the upper against
the lower mean bound `mean − t*·sem`, and with Φ monotone, t* ≥ 0 and
sqrt(n) > 0 this gives `percentile_lower ≤ percentile ≤ percentile_upper`. -/
theorem C5_ci_brackets (P : StatsPrims) (hmono : Monotone P.normCdf)
    (age : ℤ) (gender hrv_metric : String) (user_value : ℚ)
    (b : AgeBand) (g : Gender) (m : Metric)
    (hb : ageGroup age = some b) (hg : parseGender gender = some g)
    (hm : metricFromKey (normalizeMetric hrv_metric) = some m)
    (ht : 0 ≤ P.tPpf975 (sampleSize g b - 1))
    (hs : 0 < P.sqrtQ (sampleSize g b)) :
    ∃ p lo hi,
      percentileOf (get_hrv_percentile P age gender hrv_metric user_value) = some p
      ∧ ciLowerOf (get_hrv_percentile P age gender hrv_metric user_value) = some lo
      ∧ ciUpperOf (get_hrv_percentile P age gender hrv_metric user_value) = some hi
      ∧ lo ≤ p ∧ p ≤ hi := by
  rw [get_hrv_percentile_valid P age gender hrv_metric user_value b g m hb hg hm]
  have hsd := hrvNorms_sd_pos g b m
  have hsem : 0 ≤ P.tPpf975 (sampleSize g b - 1) *
      ((hrvNorms g b m).sd / P.sqrtQ (sampleSize g b)) :=
    mul_nonneg ht (le_of_lt (div_pos hsd hs))
  refine ⟨_, _, _, rfl, rfl, rfl, ?_, ?_⟩
  · exact mul_le_mul_of_nonneg_right
      (hmono ((div_le_div_iff_of_pos_right hsd).mpr (by linarith))) (by norm_num)
  · exact mul_le_mul_of_nonneg_right
      (hmono ((div_le_div_iff_of_pos_right hsd).mpr (by linarith))) (by norm_num)

/-- C5 witness: the theorem applied at (30, male, sdNN, 50) with the concrete
primitive stand-ins, whose CDF stand-in is monotone. -/
theorem C5_witness :
    ∃ p lo hi,
      percentileOf (get_hrv_percentile linPrims 30 "male" "sdNN" 50) = some p
      ∧ ciLowerOf (get_hrv_percentile linPrims 30 "male" "sdNN" 50) = some lo
      ∧ ciUpperOf (get_hrv_percentile linPrims 30 "male" "sdNN" 50) = some hi
      ∧ lo ≤ p ∧ p ≤ hi :=
  C5_ci_brackets linPrims (fun _ _ h => add_le_add_right h _) 30 "male" "sdNN" 50
    .b25_34 .male .sdNN (by decide) (by decide) (by decide) (by decide) (by decide)

theorem get_hrv_outOfRange_iff (P : StatsPrims) (age : ℤ)
    (gender hrv_metric : String) (user_value : ℚ) :
    get_hrv_percentile P age gender hrv_metric user_value = HrvResult.outOfRange ↔
      ¬(25 ≤ age ∧ age ≤ 74) := by
  rw [← ageGroup_eq_none_iff]
  unfold get_hrv_percentile
  cases hb : ageGroup age with
  | none => simp
  | some b =>
    rcases hpg : parseGender gender with _ | g
    · simp
    · rcases hgl : groupLookup g b (normalizeMetric hrv_metric) with _ | gv
      · simp [hgl]
      · rcases gv with e | k
        · by_cases hsd : e.sd = 0 <;> simp [hgl, hsd]
        · simp [hgl]

theorem get_hrv_invalidGender_iff (P : StatsPrims) (age : ℤ)
    (hage : 25 ≤ age ∧ age ≤ 74) (gender hrv_metric : String) (user_value : ℚ) :
    get_hrv_percentile P age gender hrv_metric user_value = HrvResult.invalidGender ↔
      strLower gender ≠ "male" ∧ strLower gender ≠ "female" := by
  rw [← parseGender_eq_none_iff]
  obtain ⟨b, hb⟩ := ageGroup_isSome_of_inRange age hage
  unfold get_hrv_percentile
  simp only [hb]
  rcases hpg : parseGender gender with _ | g
  · simp
  · rcases hgl : groupLookup g b (normalizeMetric hrv_metric) with _ | gv
    · simp [hgl]
    · rcases gv with e | k
      · by_cases hsd : e.sd = 0 <;> simp [hgl, hsd]
      · simp [hgl]

/-- C6: `get_hrv_percentile` returns the out-of-range value exactly when the
age is outside [25,74] — for any gender string, so the age check precedes
the gender check — and, for an in-range age, returns the invalid-gender
value exactly when the lowercased gender is neither `male` nor `female`;
both are explicit return values of the discriminated result, and they are
distinct from each other. -/
theorem C6_distinct_failures (P : StatsPrims) (age : ℤ)
    (gender hrv_metric : String) (user_value : ℚ) :
    (get_hrv_percentile P age gender hrv_metric user_value = HrvResult.outOfRange ↔
      ¬(25 ≤ age ∧ age ≤ 74))
    ∧ (25 ≤ age ∧ age ≤ 74 →
        (get_hrv_percentile P age gender hrv_metric user_value = HrvResult.invalidGender ↔
          strLower gender ≠ "male" ∧ strLower gender ≠ "female"))
    ∧ HrvResult.outOfRange ≠ HrvResult.invalidGender :=
  ⟨get_hrv_outOfRange_iff P age gender hrv_metric user_value,
   fun h => get_hrv_invalidGender_iff P age h gender hrv_metric user_value,
   by decide⟩

/-- C6 witness: at age 80 the result is the out-of-range value even with a
valid gender, and at age 30 with gender "martian" it is the invalid-gender
value. -/
theorem C6_witness :
    get_hrv_percentile linPrims 80 "male" "sdNN" 50 = HrvResult.outOfRange
    ∧ get_hrv_percentile linPrims 30 "martian" "sdNN" 50 = HrvResult.invalidGender := by
  constructor
  · exact (C6_distinct_failures linPrims 80 "male" "sdNN" 50).1.mpr (by decide)
  · exact ((C6_distinct_failures linPrims 30 "martian" "sdNN" 50).2.1 (by decide)).mpr
      (by decide)

/-- C7: the reliability tier returned by `get_hrv_percentile` is exactly
`reliability` of the group sample size, whose thresholds are n<50 → Low,
50≤n<100 → Moderate, 100≤n<200 → Good, n≥200 → High; for the shipped table
male 25-34 has n=330 (High) and female 55-64 has n=95 (Moderate). -/
theorem C7_reliability_tiers (P : StatsPrims) (age : ℤ)
    (gender hrv_metric : String) (user_value : ℚ)
    (b : AgeBand) (g : Gender) (m : Metric)
    (hb : ageGroup age = some b) (hg : parseGender gender = some g)
    (hm : metricFromKey (normalizeMetric hrv_metric) = some m) :
    reliabilityOf (get_hrv_percentile P age gender hrv_metric user_value) =
        some (reliability (sampleSize g b))
    ∧ sampleOf (get_hrv_percentile P age gender hrv_metric user_value) =
        some (sampleSize g b)
    ∧ (∀ n : ℕ, (reliability n = .Low ↔ n < 50)
        ∧ (reliability n = .Moderate ↔ 50 ≤ n ∧ n < 100)
        ∧ (reliability n = .Good ↔ 100 ≤ n ∧ n < 200)
        ∧ (reliability n = .High ↔ 200 ≤ n))
    ∧ sampleSize .male .b25_34 = 330
    ∧ reliability (sampleSize .male .b25_34) = .High
    ∧ sampleSize .female .b55_64 = 95
    ∧ reliability (sampleSize .female .b55_64) = .Moderate := by
  rw [get_hrv_percentile_valid P age gender hrv_metric user_value b g m hb hg hm]
  refine ⟨rfl, rfl, ?_, by decide, by decide, by decide, by decide⟩
  intro n
  unfold reliability
  split_ifs with h1 h2 h3 <;> refine ⟨?_, ?_, ?_, ?_⟩ <;> simp_all <;> omega

/-- C7 witness: the theorem applied at (30, male, sdNN, 50) with the
concrete primitive stand-ins. -/
theorem C7_witness :
    reliabilityOf (get_hrv_percentile linPrims 30 "male" "sdNN" 50) =
        some (reliability (sampleSize .male .b25_34))
    ∧ sampleOf (get_hrv_percentile linPrims 30 "male" "sdNN" 50) =
        some (sampleSize .male .b25_34)
    ∧ (∀ n : ℕ, (reliability n = .Low ↔ n < 50)
        ∧ (reliability n = .Moderate ↔ 50 ≤ n ∧ n < 100)
        ∧ (reliability n = .Good ↔ 100 ≤ n ∧ n < 200)
        ∧ (reliability n = .High ↔ 200 ≤ n))
    ∧ sampleSize .male .b25_34 = 330
    ∧ reliability (sampleSize .male .b25_34) = .High
    ∧ sampleSize .female .b55_64 = 95
    ∧ reliability (sampleSize .female .b55_64) = .Moderate :=
  C7_reliability_tiers linPrims 30 "male" "sdNN" 50 .b25_34 .male .sdNN
    (by decide) (by decide) (by decide)

/-- C8 counterexample: in `get_5th_percentile_value` and
`get_normative_range`, an out-of-range age (24) returns the very same
value — `None` — as an unavailable metric for a valid age (30), so the two
conditions are not distinguishable from the return value. -/
theorem C8_counterexample :
    get_5th_percentile_value linPrims 24 "male" "sdNN" =
      get_5th_percentile_value linPrims 30 "male" "nosuch"
    ∧ get_normative_range linPrims 24 "male" "sdNN" =
      get_normative_range linPrims 30 "male" "nosuch"
    ∧ get_5th_percentile_value linPrims 24 "male" "sdNN" = none
    ∧ get_normative_range linPrims 24 "male" "sdNN" = none := by
  decide

/-- C8 (amended): for the range operations, an integer age outside the five
bands makes both `get_5th_percentile_value` and `get_normative_range`
return the plain Miss value `None` — the same value a table miss produces,
not a distinguishable out-of-range condition. -/
theorem C8_out_of_range_is_none (P : StatsPrims) (age : ℤ)
    (h : ¬(25 ≤ age ∧ age ≤ 74)) (gender hrv_metric : String) :
    get_5th_percentile_value P age gender hrv_metric = none
    ∧ get_normative_range P age gender hrv_metric = none := by
  have hb : ageGroup age = none := (ageGroup_eq_none_iff age).mpr h
  unfold get_5th_percentile_value get_normative_range
  simp [hb]

/-- C8 witness: the amended theorem applied at age 24. -/
theorem C8_witness :
    get_5th_percentile_value linPrims 24 "male" "sdNN" = none
    ∧ get_normative_range linPrims 24 "male" "sdNN" = none :=
  C8_out_of_range_is_none linPrims 24 (by decide) "male" "sdNN"

/-- C9: for every fixed valid key, the percentile of `get_hrv_percentile`
is strictly increasing in the user value (with Φ strictly monotone). -/
theorem C9_percentile_strictMono (P : StatsPrims) (hsm : StrictMono P.normCdf)
    (age : ℤ) (gender hrv_metric : String)
    (b : AgeBand) (g : Gender) (m : Metric)
    (hb : ageGroup age = some b) (hg : parseGender gender = some g)
    (hm : metricFromKey (normalizeMetric hrv_metric) = some m)
    (v1 v2 : ℚ) (hv : v1 < v2) :
    ∃ p1 p2, percentileOf (get_hrv_percentile P age gender hrv_metric v1) = some p1
      ∧ percentileOf (get_hrv_percentile P age gender hrv_metric v2) = some p2
      ∧ p1 < p2 := by
  rw [get_hrv_percentile_valid P age gender hrv_metric v1 b g m hb hg hm,
      get_hrv_percentile_valid P age gender hrv_metric v2 b g m hb hg hm]
  have hsd := hrvNorms_sd_pos g b m
  exact ⟨_, _, rfl, rfl,
    mul_lt_mul_of_pos_right
      (hsm ((div_lt_div_iff_of_pos_right hsd).mpr (by linarith))) (by norm_num)⟩

/-- C9 witness: the theorem applied at (30, male, sdNN) with user values
40 < 50 and the strictly monotone CDF stand-in. -/
theorem C9_witness :
    ∃ p1 p2, percentileOf (get_hrv_percentile linPrims 30 "male" "sdNN" 40) = some p1
      ∧ percentileOf (get_hrv_percentile linPrims 30 "male" "sdNN" 50) = some p2
      ∧ p1 < p2 :=
  C9_percentile_strictMono linPrims (fun _ _ h => add_lt_add_right h _)
    30 "male" "sdNN" .b25_34 .male .sdNN
    (by decide) (by decide) (by decide) 40 50 (by decide)

/-- C10: the two range operations never validate gender: for any in-range
age, a gender string whose lowercasing is neither `male` nor `female`
yields the Miss value `None` from both — the same value an unavailable
metric yields, never a distinct invalid-gender failure — whereas
`get_hrv_percentile` returns its explicit invalid-gender value on the same
input. -/
theorem C10_range_ops_ignore_gender (P : StatsPrims) (age : ℤ)
    (hage : 25 ≤ age ∧ age ≤ 74) (gender hrv_metric : String) (user_value : ℚ)
    (h1 : strLower gender ≠ "male") (h2 : strLower gender ≠ "female") :
    get_5th_percentile_value P age gender hrv_metric = none
    ∧ get_normative_range P age gender hrv_metric = none
    ∧ get_hrv_percentile P age gender hrv_metric user_value =
        HrvResult.invalidGender := by
  obtain ⟨b, hb⟩ := ageGroup_isSome_of_inRange age hage
  have hpg : parseGender gender = none := (parseGender_eq_none_iff gender).mpr ⟨h1, h2⟩
  unfold get_5th_percentile_value get_normative_range get_hrv_percentile
  simp [hb, hpg]

/-- C10 witness: the theorem applied at (30, "martian", sdNN, 50). -/
theorem C10_witness :
    get_5th_percentile_value linPrims 30 "martian" "sdNN" = none
    ∧ get_normative_range linPrims 30 "martian" "sdNN" = none
    ∧ get_hrv_percentile linPrims 30 "martian" "sdNN" 50 =
        HrvResult.invalidGender :=
  C10_range_ops_ignore_gender linPrims 30 (by decide) "martian" "sdNN" 50
    (by decide) (by decide)

end HrvAnalysis
